import Mathlib

set_option maxHeartbeats 1000000

/-! Shallow embedding of the workflow orchestration engine of the
Recipe-AI repository: the data model (models.py), the workflow nodes
(nodes.py) and the services (src/services/recipe_service.py,
src/services/workflow_service.py), together with the workflow graph.

External LLM and web-search calls are modelled as oracle parameters: an
Option value (or a small outcome type) standing for the parsed result of
the external call, with a failure constructor standing for a raised
exception or an unparseable response.  Python in-place dict mutation of
the state becomes pure record update; a Python exception escaping a node
becomes an Except.error.  Recipe dicts are modelled as records carrying
the fields of the FinalRecipe schema that the orchestration logic reads
(the nutrition sub-object of a recipe dict is not read by any node and is
omitted); a key read with a Python default that is always present in the
modelled flow is a plain field access. -/

/-- A JSON value appearing in a parsed LLM list: either a string or some
non-string JSON value.  The enhancement merge filters entries with
isinstance(tip, str), so only the string/non-string distinction matters. -/
inductive JVal where
  | jstr (s : String)
  | jother
deriving DecidableEq

/-- The appliance_used field of a recipe dict as delivered by a generation
call: declared a string in the schema, but nodes.py defends against a
list-shaped value (final_recipe_compiler_node, lines 119-133). -/
inductive ApplianceField where
  | str (s : String)
  | list (l : List String)
deriving DecidableEq

/-- NutritionInfo fields of models.py; float fields are modelled as
exact rationals. -/
structure NutritionInfo where
  calories_per_serving : Int
  protein_g : Rat
  carbs_g : Rat
  fat_g : Rat
  fiber_g : Rat
  sodium_mg : Rat
  sugar_g : Rat
  key_nutrients : List String
  health_benefits : List String
deriving DecidableEq

/-- A recipe dict (draft or final), with the fields of the FinalRecipe
schema of models.py that the orchestration logic reads or writes. -/
structure Recipe where
  name : String
  description : String
  ingredients : List String
  instructions : List String
  prep_time : Nat
  cook_time : Nat
  total_time : Nat
  servings : Nat
  difficulty : String
  cuisine_type : String
  appliance_used : ApplianceField
  tips : List String
  variations : List String
  storage_instructions : String
  emoji_representation : String
deriving DecidableEq

/-- One collected search-result record as stored by online_search_node
(nodes.py lines 206-212). -/
structure SearchResult where
  title : String
  content : String
  url : String
  query : String
deriving DecidableEq

/-- The RecipeState TypedDict of models.py, restricted to the fields the
modelled nodes read or write.  selected_recipe and final_recipe are
Option Recipe with none standing for the empty dict the UI initialises
them to (falsy in Python); parse_ingredients produces plain strings, so
parsed_ingredients is a list of strings (the TypedDict declares dicts:
see strGetName below).  error_message is a string, empty meaning absent. -/
structure RecipeState where
  ingredients : List String
  appliance : ApplianceField
  available_appliances : List String
  dietary_restrictions : List String
  cuisine_preference : String
  skill_level : String
  parsed_ingredients : List String
  selected_recipe : Option Recipe
  nutrition_info : Option NutritionInfo
  shopping_list : List String
  cooking_tips : List String
  final_recipe : Option Recipe
  online_search_results : List SearchResult
  search_enhanced : Bool
  search_enhancement_complete : Bool
  processing_step : String
  error_message : String
deriving DecidableEq

/-- Read a field of a recipe dict with a Python .get default, where the
dict itself may be the empty dict (none). -/
def recGet {α : Type} (o : Option Recipe) (f : Recipe → α) (dflt : α) : α :=
  match o with
  | some r => f r
  | none => dflt

/-! ## recipe_service.py -/

/-- parse_ingredients (recipe_service.py lines 103-105): strip every
entry and keep the non-empty ones. -/
def parse_ingredients (ingredients : List String) : List String :=
  (ingredients.map String.trim).filter (fun s => s ≠ "")

/-- The combined JSON response of generate_combined_recipe as seen by the
validator: a top-level key may be missing (none). -/
structure CombinedResponse where
  recipe : Option Recipe
  nutrition : Option NutritionInfo
  shopping_list : Option (List String)
deriving DecidableEq

/-- validate_recipe_data (recipe_service.py lines 107-110): all three
top-level keys must be present. -/
def validate_recipe_data (d : CombinedResponse) : Bool :=
  d.recipe.isSome && d.nutrition.isSome && d.shopping_list.isSome

/-- The dict returned by create_fallback_recipe: all three keys present. -/
structure CombinedData where
  recipe : Recipe
  nutrition : NutritionInfo
  shopping_list : List String
deriving DecidableEq

/-- The single-quote character, used when Python renders a list inside an
f-string. -/
def singleQuote : String := String.singleton (Char.ofNat 39)

/-- Python str() rendering of an appliance value inside an f-string: a
string renders as itself, a list renders as its repr. -/
def pyStrOfAppliance : ApplianceField → String
  | ApplianceField.str s => s
  | ApplianceField.list l =>
      "[" ++ String.intercalate ", " (l.map (fun s => singleQuote ++ s ++ singleQuote)) ++ "]"

/-- The fixed nutrition estimates of create_fallback_recipe
(recipe_service.py lines 146-156). -/
def fallback_nutrition : NutritionInfo :=
  { calories_per_serving := 300
    protein_g := 12
    carbs_g := 40
    fat_g := 10
    fiber_g := 5
    sodium_mg := 500
    sugar_g := 6
    key_nutrients := ["Vitamin C", "Iron", "Calcium"]
    health_benefits := ["Provides balanced nutrition", "Contains essential vitamins"] }

/-- create_fallback_recipe (recipe_service.py lines 112-158). -/
def create_fallback_recipe (ingredients : List String) (appliance : ApplianceField) :
    CombinedData :=
  { recipe :=
      { name := "Simple Mixed Dish"
        description := "A simple dish using available ingredients with " ++
          pyStrOfAppliance appliance
        emoji_representation := "🍽️✨"
        prep_time := 15
        cook_time := 30
        total_time := 45
        servings := 4
        difficulty := "Easy"
        cuisine_type := "International"
        appliance_used := appliance
        ingredients := ingredients.map (fun ingredient => "• " ++ ingredient)
        instructions :=
          ["1. Prepare all ingredients by washing and chopping as needed",
           "2. Use your " ++ pyStrOfAppliance appliance ++ " to cook the ingredients",
           "3. Season to taste with salt and pepper",
           "4. Cook until ingredients are tender and flavors are combined",
           "5. Serve hot and enjoy!"]
        tips :=
          ["Taste and adjust seasoning as needed",
           "Don" ++ singleQuote ++ "t overcook the vegetables",
           "Add herbs or spices to enhance flavor"]
        variations :=
          ["Add different seasonings",
           "Include additional vegetables",
           "Try different cooking methods"]
        storage_instructions := "Store in refrigerator for up to 3 days" }
    nutrition := fallback_nutrition
    shopping_list := ["Basic seasonings if needed"] }

/-! ## workflow_service.py: combined_recipe_generation_node -/

/-- The fallback branch of combined_recipe_generation_node
(workflow_service.py lines 53-63): generate fallback data from the raw
ingredient list and the state appliance, and store its parts. -/
def applyDraftFallback (st : RecipeState) : RecipeState :=
  let fb := create_fallback_recipe st.ingredients st.appliance
  { st with selected_recipe := some fb.recipe
            nutrition_info := some fb.nutrition
            shopping_list := fb.shopping_list
            final_recipe := some fb.recipe }

/-- combined_recipe_generation_node (workflow_service.py lines 30-68).
genOutcome is the oracle for generate_combined_recipe: none stands for a
raised GenerationFailure or ParseFailure; a response failing the
three-key validation also falls to the fallback (the raised ValueError is
caught by the inner handler).  The body of the outer try is total on the
modelled inputs, so the re-raising outer handler is unreachable and the
node is a total function. -/
def combined_recipe_generation_node (genOutcome : Option CombinedResponse)
    (st : RecipeState) : RecipeState :=
  let st1 := { st with parsed_ingredients := parse_ingredients st.ingredients }
  match genOutcome with
  | some d =>
      if validate_recipe_data d then
        match d.recipe, d.nutrition, d.shopping_list with
        | some r, some n, some sl =>
            { st1 with selected_recipe := some r
                       nutrition_info := some n
                       shopping_list := sl
                       final_recipe := some r }
        | _, _, _ => applyDraftFallback st1
      else applyDraftFallback st1
  | none => applyDraftFallback st1

/-! ## nodes.py: cooking_tips_node -/

/-- The fixed generic tip list of the cooking_tips_node failure branch
(nodes.py lines 65-70). -/
def generic_cooking_tips : List String :=
  ["Read through the entire recipe before starting",
   "Prep all ingredients before cooking",
   "Keep a clean workspace",
   "Taste as you go and adjust seasoning"]

/-- cooking_tips_node (nodes.py lines 25-72).  resp is the oracle for the
text-generation call: some content is the response text, none a raised
exception.  On success the tips list is the stripped non-empty lines of
the response; on failure it is the fixed generic list (and
processing_step keeps the value set at entry). -/
def cooking_tips_node (resp : Option String) (st : RecipeState) : RecipeState :=
  let st1 := { st with processing_step := "cooking_tips" }
  match resp with
  | some content =>
      { st1 with cooking_tips :=
                   ((content.splitOn "\n").map String.trim).filter (fun t => t ≠ "")
                 processing_step := "cooking_tips_complete" }
  | none => { st1 with cooking_tips := generic_cooking_tips }

/-- The tips value cooking_tips_node stores, as a function of its oracle
alone. -/
def tipsFromResponse : Option String → List String
  | some content => ((content.splitOn "\n").map String.trim).filter (fun t => t ≠ "")
  | none => generic_cooking_tips

/-! ## nodes.py: final_recipe_compiler_node -/

/-- Python string indexing with a string key, as the compiler fallback
performs via the name key on entries of parsed_ingredients; since
parse_ingredients produces plain strings, this raises TypeError. -/
def strGetName (_s : String) : Except String String :=
  Except.error "TypeError: string indices must be integers"

/-- The fallback recipe dict built in the except branch of
final_recipe_compiler_node (nodes.py lines 128-157).  Building the
ingredient list indexes each parsed-ingredient entry with a string key,
which raises on the plain strings parse_ingredients produces; an empty
parsed-ingredient list builds the dict without raising. -/
def fallback_final_recipe (st : RecipeState) : Except String Recipe :=
  (st.parsed_ingredients.mapM strGetName).map (fun names =>
    let primary : ApplianceField :=
      match st.appliance with
      | ApplianceField.list [] => ApplianceField.str "Stovetop"
      | ApplianceField.list (a :: _) => ApplianceField.str a
      | a => a
    { name := recGet st.selected_recipe Recipe.name "Custom Recipe"
      description := recGet st.selected_recipe Recipe.description "A delicious homemade dish"
      ingredients := names.map (fun n => "• " ++ n)
      instructions :=
        ["1. Prepare all ingredients",
         "2. Follow cooking method for your appliance",
         "3. Cook until done",
         "4. Serve and enjoy!"]
      prep_time := recGet st.selected_recipe Recipe.prep_time 15
      cook_time := recGet st.selected_recipe Recipe.cook_time 30
      total_time := recGet st.selected_recipe Recipe.prep_time 15 +
                    recGet st.selected_recipe Recipe.cook_time 30
      servings := recGet st.selected_recipe Recipe.servings 4
      difficulty := recGet st.selected_recipe Recipe.difficulty "Medium"
      cuisine_type := recGet st.selected_recipe Recipe.cuisine_type "International"
      appliance_used := primary
      tips := st.cooking_tips
      variations := ["Try different seasonings", "Add more vegetables"]
      storage_instructions := "Store in refrigerator for up to 3 days"
      emoji_representation := "🍽️✨" })

/-- final_recipe_compiler_node (nodes.py lines 74-159).  gen is the
oracle for the structured compilation call: none stands for a raised
generation or parse failure.  On success the appliance_used field is
collapsed to its first element when list-shaped; indexing an empty list
raises IndexError inside the try, which falls to the fallback branch. -/
def final_recipe_compiler_node (gen : Option Recipe) (st : RecipeState) :
    Except String RecipeState :=
  let st1 := { st with processing_step := "final_recipe_compilation" }
  let attempt : Option Recipe :=
    match gen with
    | none => none
    | some r =>
        match r.appliance_used with
        | ApplianceField.str _ => some r
        | ApplianceField.list [] => none
        | ApplianceField.list (a :: _) => some { r with appliance_used := ApplianceField.str a }
  match attempt with
  | some fr =>
      Except.ok { st1 with final_recipe := some fr
                           processing_step := "final_recipe_complete" }
  | none =>
      (fallback_final_recipe st1).map (fun fb => { st1 with final_recipe := some fb })

/-! ## nodes.py: online_search_node -/

/-- A raw result record of a search response; keys read with .get and
default empty string. -/
structure RawResult where
  title : String
  content : String
  url : String
deriving DecidableEq

/-- Outcome of one tavily_client.search call: a response with a results
list, a falsy response or one lacking the results key, or a raised
exception carrying an error message. -/
inductive SearchOutcome where
  | ok (results : List RawResult)
  | noResults
  | err (msg : String)

/-- The authentication-error test of nodes.py lines 215-216: the
lower-cased error text contains unauthorized or api key. -/
def isTavilyAuthError (msg : String) : Bool :=
  let m := (msg.toLower).toList
  decide ("unauthorized".toList <:+: m) || decide ("api key".toList <:+: m)

/-- The search loop of online_search_node (nodes.py lines 198-223),
returning the collected result records and the list of issued calls as
(query, max_results) pairs.  An auth-class error aborts the remaining
queries (break), keeping results collected so far; any other error skips
to the next query. -/
def runSearches (searchFn : String → Nat → SearchOutcome) :
    List String → List SearchResult × List (String × Nat)
  | [] => ([], [])
  | q :: rest =>
    match searchFn q 2 with
    | SearchOutcome.ok results =>
        (results.map (fun r => ⟨r.title, r.content, r.url, q⟩) ++
           (runSearches searchFn rest).1,
         (q, 2) :: (runSearches searchFn rest).2)
    | SearchOutcome.noResults =>
        ((runSearches searchFn rest).1, (q, 2) :: (runSearches searchFn rest).2)
    | SearchOutcome.err msg =>
        if isTavilyAuthError msg then ([], [(q, 2)])
        else ((runSearches searchFn rest).1, (q, 2) :: (runSearches searchFn rest).2)

/-- Query synthesis of online_search_node (nodes.py lines 176-196): up to
three queries, from the recipe name (when truthy), the first three raw
ingredients with the cuisine preference, and the available appliances. -/
def buildQueries (st : RecipeState) : List String :=
  let selectedName :=
    match st.selected_recipe with
    | some r => r.name
    | none => ""
  (if selectedName ≠ "" then [selectedName ++ " recipe cooking tips best practices"]
   else []) ++
  (if st.ingredients ≠ [] then
     ["cooking techniques " ++ String.intercalate " " (st.ingredients.take 3) ++
      " " ++ st.cuisine_preference ++ " cuisine"]
   else []) ++
  (if st.available_appliances ≠ [] then
     ["cooking tips " ++ String.intercalate " " st.available_appliances ++
      " techniques professional chef"]
   else [])

/-- online_search_node (nodes.py lines 161-237).  hasClient models
whether a Tavily client was constructed.  Only the first two synthesized
queries are issued, each with max_results 2.  The loop absorbs every
search failure, so the outer exception handler that would set
error_message is unreachable and the node is total. -/
def online_search_node (hasClient : Bool) (searchFn : String → Nat → SearchOutcome)
    (st : RecipeState) : RecipeState :=
  let st1 := { st with processing_step := "online_search" }
  if hasClient = false then
    { st1 with online_search_results := [], search_enhanced := false }
  else
    let results := (runSearches searchFn ((buildQueries st1).take 2)).1
    { st1 with online_search_results := results
               search_enhanced := decide (0 < results.length)
               processing_step := "online_search_complete" }

/-- The (query, max_results) pairs of the search calls online_search_node
issues on a state, when a client is configured. -/
def issuedSearchCalls (searchFn : String → Nat → SearchOutcome) (st : RecipeState) :
    List (String × Nat) :=
  (runSearches searchFn ((buildQueries st).take 2)).2

/-! ## nodes.py: enhance_with_search_node -/

/-- The duplicate-dropping loop of nodes.py lines 308-313: walk the
combined list, keep each string value not seen before, skip non-string
values. -/
def dedupStringTips : List JVal → List String → List String
  | [], _ => []
  | JVal.jstr s :: rest, seen =>
      if s ∈ seen then dedupStringTips rest seen
      else s :: dedupStringTips rest (s :: seen)
  | JVal.jother :: rest, seen => dedupStringTips rest seen

/-- enhance_with_search_node (nodes.py lines 239-331).  resp is the
oracle for the tip-enhancement call: some tips is a response whose
content parsed as a JSON list, none stands for a raised call, an
unparseable response, or a parsed non-list (all of which leave the state
as it was after the entry bookkeeping).  The processing_step field is set
at entry, before the one-shot latch is checked. -/
def enhance_with_search_node (resp : Option (List JVal)) (st : RecipeState) :
    RecipeState :=
  let st1 := { st with processing_step := "search_enhancement" }
  if st1.search_enhancement_complete then st1
  else if st1.search_enhanced = false ∨ st1.online_search_results = [] then st1
  else
    let search_content := st1.online_search_results.filterMap (fun r =>
      if r.content ≠ "" then some ("Source: " ++ r.title ++ "\n" ++ r.content)
      else none)
    if search_content = [] then st1
    else
      match resp with
      | none => st1
      | some enhanced_tips =>
          let all_tips := st1.cooking_tips.map JVal.jstr ++ enhanced_tips
          let unique_tips := dedupStringTips all_tips []
          { st1 with cooking_tips := unique_tips.take 8
                     processing_step := "search_enhancement_complete"
                     search_enhancement_complete := true }

/-! ## nodes.py: instruction_completion_node -/

/-- The incompleteness heuristic of nodes.py lines 348-358: fewer than
three steps, or otherwise an average step length below 30 characters
(stated exactly: total length below 30 times the step count). -/
def instructionsNeedCompletion (instructions : List String) : Bool :=
  if instructions = [] ∨ instructions.length < 3 then true
  else decide ((instructions.map String.length).sum < 30 * instructions.length)

/-- Whether instruction_completion_node reaches the corrective generation
call on a given state: a recipe must be present and its instructions must
be judged incomplete. -/
def attemptsCorrection (st : RecipeState) : Bool :=
  match st.final_recipe with
  | none => false
  | some recipe => instructionsNeedCompletion recipe.instructions

/-- Outcome of the corrective call of instruction_completion_node:
raised covers an exception from the call itself (processing_step keeps
the entry value), parseFailed a JSONDecodeError (processing_step advances,
instructions untouched), parsed the complete_instructions list extracted
from the parsed response (defaulting to empty when the key is missing). -/
inductive CompletionOutcome where
  | raised
  | parseFailed
  | parsed (steps : List String)

/-- instruction_completion_node (nodes.py lines 333-414).  The returned
instruction list replaces the recipe instructions only when it is truthy
and strictly longer than the current list; on replacement the updated
recipe dict is stored as both final_recipe and selected_recipe. -/
def instruction_completion_node (resp : CompletionOutcome) (st : RecipeState) :
    RecipeState :=
  let st1 := { st with processing_step := "instruction_completion" }
  match st1.final_recipe with
  | none => st1
  | some recipe =>
    if instructionsNeedCompletion recipe.instructions then
      match resp with
      | CompletionOutcome.raised => st1
      | CompletionOutcome.parseFailed =>
          { st1 with processing_step := "instruction_completion_complete" }
      | CompletionOutcome.parsed steps =>
          if steps ≠ [] ∧ recipe.instructions.length < steps.length then
            let updated := { recipe with instructions := steps }
            { st1 with final_recipe := some updated
                       selected_recipe := some updated
                       processing_step := "instruction_completion_complete" }
          else { st1 with processing_step := "instruction_completion_complete" }
    else { st1 with processing_step := "instruction_completion_complete" }

/-! ## workflow_service.py: enhanced_cooking_tips_node and the graph -/

/-- enhanced_cooking_tips_node (workflow_service.py lines 70-94): online
search when the service has Tavily enabled, enhancement when the search
collected results, then tips generation and final compilation.  An
exception escaping a sub-node is re-raised wrapped in a new message (the
assignment after the raise statement is dead code). -/
def enhanced_cooking_tips_node (tavilyEnabled : Bool) (hasClient : Bool)
    (searchFn : String → Nat → SearchOutcome) (enhResp : Option (List JVal))
    (tipsResp : Option String) (compGen : Option Recipe)
    (st : RecipeState) : Except String RecipeState :=
  let st1 :=
    if tavilyEnabled then
      let sA := online_search_node hasClient searchFn st
      if sA.online_search_results ≠ [] then enhance_with_search_node enhResp sA
      else sA
    else st
  let st2 := cooking_tips_node tipsResp st1
  match final_recipe_compiler_node compGen st2 with
  | Except.ok st3 => Except.ok st3
  | Except.error e => Except.error ("Error in enhanced cooking tips: " ++ e)

/-- The nodes of the LangGraph workflow graph. -/
inductive WNode where
  | combined_recipe_generation
  | enhanced_cooking_tips
  | instruction_completion
  | END
deriving DecidableEq

/-- create_workflow_graph (workflow_service.py lines 96-119) as its edge
list: the enhanced chain when Tavily is enabled, the simple chain
otherwise. -/
def create_workflow_graph (tavilyEnabled : Bool) : List (WNode × WNode) :=
  if tavilyEnabled then
    [(WNode.combined_recipe_generation, WNode.enhanced_cooking_tips),
     (WNode.enhanced_cooking_tips, WNode.instruction_completion),
     (WNode.instruction_completion, WNode.END)]
  else
    [(WNode.combined_recipe_generation, WNode.instruction_completion),
     (WNode.instruction_completion, WNode.END)]

/-- The entry point set by create_workflow_graph. -/
def entryPoint : WNode := WNode.combined_recipe_generation

/-- The unique successor of a node in the graph, when one exists. -/
def nextNode (tavilyEnabled : Bool) (n : WNode) : Option WNode :=
  ((create_workflow_graph tavilyEnabled).find? (fun e => e.1 = n)).map (fun e => e.2)

/-- Follow graph edges from a node for at most the given number of steps,
recording the non-terminal nodes visited. -/
def chase (tavilyEnabled : Bool) : Nat → WNode → List WNode
  | 0, _ => []
  | Nat.succ fuel, w =>
      if w = WNode.END then []
      else
        w :: (match nextNode tavilyEnabled w with
              | some w2 => chase tavilyEnabled fuel w2
              | none => [])

/-- The sequence of workflow nodes executed in one run, derived from the
graph edges and entry point (both chains have at most three nodes before
the terminal marker). -/
def executionOrder (tavilyEnabled : Bool) : List WNode :=
  chase tavilyEnabled 4 entryPoint

/-- One run of the Tavily-disabled (simple) workflow: the draft
generation node followed by the instruction completion node, per the
edges of create_workflow_graph false. -/
def runSimpleWorkflow (genOutcome : Option CombinedResponse)
    (instrResp : CompletionOutcome) (st : RecipeState) : RecipeState :=
  instruction_completion_node instrResp (combined_recipe_generation_node genOutcome st)

/-! ## Concrete fixtures for examples and witnesses -/

/-- The initial state the UI builds (app.py lines 324-346), for the
end-to-end scenario of the spec. -/
def initState : RecipeState :=
  { ingredients := ["chicken", "rice", "broccoli"]
    appliance := ApplianceField.str "Oven"
    available_appliances := ["Oven", "Stovetop"]
    dietary_restrictions := []
    cuisine_preference := "Any"
    skill_level := "Beginner"
    parsed_ingredients := []
    selected_recipe := none
    nutrition_info := none
    shopping_list := []
    cooking_tips := []
    final_recipe := none
    online_search_results := []
    search_enhanced := false
    search_enhancement_complete := false
    processing_step := ""
    error_message := "" }

/-- The three-step, long-step instruction list of the completeness-audit
example in the spec. -/
def longInstructions : List String :=
  ["Step 1: wash, chop, and season the chicken for at least ten minutes before searing",
   "Step 2: sear on medium-high heat for six minutes per side",
   "Step 3: rest for five minutes before slicing and serving"]

/-- A nutrition object for concrete examples. -/
def demoNutrition : NutritionInfo :=
  { calories_per_serving := 350
    protein_g := 25
    carbs_g := 30
    fat_g := 12
    fiber_g := 5
    sodium_mg := 450
    sugar_g := 8
    key_nutrients := ["High in protein"]
    health_benefits := ["Balanced meal"] }

/-- A recipe whose appliance_used is a single string. -/
def strApplianceRecipe : Recipe :=
  { name := "Roast Chicken Bowl"
    description := "A roasted chicken and rice bowl"
    ingredients := ["chicken", "rice", "broccoli"]
    instructions := longInstructions
    prep_time := 15
    cook_time := 30
    total_time := 45
    servings := 4
    difficulty := "Easy"
    cuisine_type := "Any"
    appliance_used := ApplianceField.str "Oven"
    tips := []
    variations := []
    storage_instructions := "Refrigerate"
    emoji_representation := "🍗" }

/-- The same recipe with a list-shaped appliance_used, as a generation
call may deliver it. -/
def listApplianceRecipe : Recipe :=
  { strApplianceRecipe with appliance_used := ApplianceField.list ["Oven", "Stovetop"] }

/-- A combined generation response that passes the three-key validation
and carries the list-shaped appliance recipe. -/
def listApplianceResponse : CombinedResponse :=
  { recipe := some listApplianceRecipe
    nutrition := some demoNutrition
    shopping_list := some ["olive oil"] }

/-- A state on which the enhancement latch is already set, with the
processing_step value the first enhancement left behind. -/
def latchedState : RecipeState :=
  { initState with
      search_enhancement_complete := true
      processing_step := "search_enhancement_complete" }

/-- A state whose compiled recipe has the one-step instruction list of
the audit example. -/
def oneStepState : RecipeState :=
  { initState with final_recipe := some { strApplianceRecipe with instructions := ["ok"] } }

/-- A state whose compiled recipe has the three-long-step instruction
list of the audit example. -/
def threeLongState : RecipeState :=
  { initState with final_recipe := some strApplianceRecipe }

/-- A state ready for tip enhancement: latch unset, search marked
productive, one search result with non-empty content, and existing tips
A and B. -/
def exampleTipState : RecipeState :=
  { initState with
      cooking_tips := ["A", "B"]
      search_enhanced := true
      online_search_results := [{ title := "T", content := "Some content", url := "u", query := "q" }] }

/-- The string values of a parsed JSON list, in order. -/
def jstrVals (l : List JVal) : List String :=
  l.filterMap (fun v => match v with | JVal.jstr s => some s | JVal.jother => none)

/-- The replacement steps used in the C7 witness. -/
def newSteps : List String := ["Step 1 prep", "Step 2 cook", "Step 3 serve"]

/-- A search capability whose every call raises an authentication error. -/
def failingSearch : String → Nat → SearchOutcome :=
  fun _ _ => SearchOutcome.err "401 Unauthorized"

/-- A search capability that reports no results for every query, for the
C9 witness. -/
def noResultSearch : String → Nat → SearchOutcome :=
  fun _ _ => SearchOutcome.noResults

/-! ## Claim C1: stage sequencing -/

/-- C1: the claim states that after the draft stage the tips-and-compilation
stage and the audit stage always execute, configuration affecting only the
Research Augmenter branch.  Counterexample: with Tavily disabled the graph
chains the draft node directly to the audit node, so the
enhanced_cooking_tips node (which contains the tips generation, the
compilation, and the augmentation) is never executed at all. -/
theorem C1_counterexample :
    executionOrder false =
      [WNode.combined_recipe_generation, WNode.instruction_completion] ∧
    WNode.enhanced_cooking_tips ∉ executionOrder false ∧
    WNode.enhanced_cooking_tips ∈ executionOrder true := by decide

/-- C1 amended: the draft stage and the completeness-audit stage execute in
every run; the combined tips-compilation-augmentation node executes exactly
in Tavily-enabled runs, so configuration skips not only the augmentation
branch but the whole tips-and-compilation stage. -/
theorem C1_amended :
    executionOrder true =
      [WNode.combined_recipe_generation, WNode.enhanced_cooking_tips,
       WNode.instruction_completion] ∧
    executionOrder false =
      [WNode.combined_recipe_generation, WNode.instruction_completion] ∧
    (∀ t : Bool, WNode.combined_recipe_generation ∈ executionOrder t) ∧
    (∀ t : Bool, WNode.instruction_completion ∈ executionOrder t) := by decide

/-! ## Claim C10: draft stage populates both recipe views -/

/-- C10: after the draft-generation stage, whether it succeeded or fell
back, final_recipe is populated (a recipe dict is stored, not the empty
dict) and selected_recipe holds that same recipe object, so final_recipe
is already populated before any compilation stage runs. -/
theorem C10_selected_eq_final :
    ∀ (genOutcome : Option CombinedResponse) (st : RecipeState),
      (combined_recipe_generation_node genOutcome st).final_recipe.isSome = true ∧
      (combined_recipe_generation_node genOutcome st).selected_recipe =
        (combined_recipe_generation_node genOutcome st).final_recipe := by
  intro g st
  rcases g with _ | ⟨_ | r, _ | n, _ | sl⟩ <;> exact ⟨rfl, rfl⟩

/-! ## Claim C5: deterministic draft fallback -/

/-- C5: when the combined generation call raises, the draft stage stores
the deterministic fallback recipe, whose ingredients are exactly the raw
input ingredient list bullet-prefixed and whose total time is the sum of
its preparation and cooking times; the stage completes normally, leaving
the error message untouched. -/
theorem C5_draft_fallback :
    ∀ st : RecipeState,
      (combined_recipe_generation_node none st).selected_recipe =
        some (create_fallback_recipe st.ingredients st.appliance).recipe ∧
      (combined_recipe_generation_node none st).final_recipe =
        some (create_fallback_recipe st.ingredients st.appliance).recipe ∧
      (create_fallback_recipe st.ingredients st.appliance).recipe.ingredients =
        st.ingredients.map (fun ingredient => "• " ++ ingredient) ∧
      (create_fallback_recipe st.ingredients st.appliance).recipe.total_time =
        (create_fallback_recipe st.ingredients st.appliance).recipe.prep_time +
          (create_fallback_recipe st.ingredients st.appliance).recipe.cook_time ∧
      (combined_recipe_generation_node none st).error_message = st.error_message := by
  intro st
  exact ⟨rfl, rfl, rfl, rfl, rfl⟩

/-! ## Claim C3: the enhancement latch -/

/-- C3: the claim states that re-invoking the tip-enhancement step on a
latched state returns the state unchanged.  Counterexample: the node
writes processing_step before checking the latch, so on a latched state
whose processing_step records the previous completion, the returned state
differs from the input. -/
theorem C3_counterexample :
    latchedState.search_enhancement_complete = true ∧
    enhance_with_search_node none latchedState ≠ latchedState := by decide

/-- C3 amended: on a latched state the enhancement node returns the state
unchanged except for the diagnostic processing_step field, set to
search_enhancement; in particular the cooking-tips list is bit-for-bit
equal.  Moreover no modelled node ever resets the latch: every other node
preserves search_enhancement_complete exactly, and the enhancement node
either preserves it or sets it to true. -/
theorem C3_amended :
    (∀ (resp : Option (List JVal)) (st : RecipeState),
        st.search_enhancement_complete = true →
          enhance_with_search_node resp st =
            { st with processing_step := "search_enhancement" }) ∧
    (∀ (g : Option CombinedResponse) (st : RecipeState),
        (combined_recipe_generation_node g st).search_enhancement_complete =
          st.search_enhancement_complete) ∧
    (∀ (hc : Bool) (f : String → Nat → SearchOutcome) (st : RecipeState),
        (online_search_node hc f st).search_enhancement_complete =
          st.search_enhancement_complete) ∧
    (∀ (r : Option String) (st : RecipeState),
        (cooking_tips_node r st).search_enhancement_complete =
          st.search_enhancement_complete) ∧
    (∀ (g : Option Recipe) (st st2 : RecipeState),
        final_recipe_compiler_node g st = Except.ok st2 →
          st2.search_enhancement_complete = st.search_enhancement_complete) ∧
    (∀ (r : CompletionOutcome) (st : RecipeState),
        (instruction_completion_node r st).search_enhancement_complete =
          st.search_enhancement_complete) ∧
    (∀ (resp : Option (List JVal)) (st : RecipeState),
        (enhance_with_search_node resp st).search_enhancement_complete =
            st.search_enhancement_complete ∨
        (enhance_with_search_node resp st).search_enhancement_complete = true) := by
  refine ⟨?_, ?_, ?_, ?_, ?_, ?_, ?_⟩
  · intro resp st h
    simp [enhance_with_search_node, h]
  · intro g st
    rcases g with _ | ⟨_ | r, _ | n, _ | sl⟩ <;> rfl
  · intro hc f st
    cases hc <;> rfl
  · intro r st
    cases r <;> rfl
  · intro g st st2 h
    rcases g with _ | r
    · simp only [final_recipe_compiler_node] at h
      cases hf : fallback_final_recipe { st with processing_step := "final_recipe_compilation" } with
      | error e => rw [hf] at h; simp [Except.map] at h
      | ok fb =>
          rw [hf] at h
          simp only [Except.map, Except.ok.injEq] at h
          rw [← h]
    · rcases ha : r.appliance_used with s | (_ | ⟨a, rest⟩)
      · simp only [final_recipe_compiler_node, ha, Except.ok.injEq] at h
        rw [← h]
      · simp only [final_recipe_compiler_node, ha] at h
        cases hf : fallback_final_recipe { st with processing_step := "final_recipe_compilation" } with
        | error e => rw [hf] at h; simp [Except.map] at h
        | ok fb =>
            rw [hf] at h
            simp only [Except.map, Except.ok.injEq] at h
            rw [← h]
      · simp only [final_recipe_compiler_node, ha, Except.ok.injEq] at h
        rw [← h]
  · intro r st
    cases hf : st.final_recipe with
    | none => simp [instruction_completion_node, hf]
    | some recipe =>
        cases r with
        | raised =>
            simp only [instruction_completion_node, hf]
            split <;> rfl
        | parseFailed =>
            simp only [instruction_completion_node, hf]
            split <;> rfl
        | parsed steps =>
            simp only [instruction_completion_node, hf]
            split
            · split <;> rfl
            · rfl
  · intro resp st
    by_cases h : st.search_enhancement_complete = true
    · left; simp [enhance_with_search_node, h]
    · simp only [enhance_with_search_node]
      simp only [Bool.not_eq_true] at h
      simp only [h]
      split
      · left; rfl
      · split
        · left; rfl
        · split
          · left; rfl
          · cases resp with
            | none => left; rfl
            | some tips => right; rfl

/-- C3 witness: the amended statement applied on the latched example state. -/
theorem C3_amended_witness :
    latchedState.search_enhancement_complete = true ∧
    enhance_with_search_node none latchedState =
      { latchedState with processing_step := "search_enhancement" } :=
  ⟨rfl, C3_amended.1 none latchedState rfl⟩

/-! ## Claim C6: the completeness-audit trigger -/

/-- C6: the auditor reaches the corrective generation call exactly when
the compiled instruction list has fewer than 3 steps or its mean character
length is below 30; it attempts correction on the one-step example and not
on the three-long-step example, and when no correction is attempted the
node result does not depend on the corrective oracle. -/
theorem C6_audit_trigger :
    (∀ insts : List String,
        instructionsNeedCompletion insts = true ↔
          (insts.length < 3 ∨
            ((insts.map String.length).sum : ℚ) / (insts.length : ℚ) < 30)) ∧
    attemptsCorrection oneStepState = true ∧
    attemptsCorrection threeLongState = false ∧
    (∀ (r1 r2 : CompletionOutcome) (st : RecipeState),
        attemptsCorrection st = false →
          instruction_completion_node r1 st = instruction_completion_node r2 st) := by
  refine ⟨?_, by decide, by decide, ?_⟩
  · intro insts
    unfold instructionsNeedCompletion
    by_cases h3 : insts = [] ∨ insts.length < 3
    · have hlt : insts.length < 3 := by
        rcases h3 with h | h
        · simp [h]
        · exact h
      simp [h3, hlt]
    · rw [if_neg h3]
      push_neg at h3
      obtain ⟨hne, hge⟩ := h3
      have hpos : 0 < insts.length := by omega
      have hq : (0 : ℚ) < (insts.length : ℚ) := by exact_mod_cast hpos
      simp only [decide_eq_true_eq]
      rw [div_lt_iff₀ hq]
      constructor
      · intro h
        right
        exact_mod_cast h
      · rintro (h | h)
        · omega
        · exact_mod_cast h
  · intro r1 r2 st h
    unfold attemptsCorrection at h
    cases hf : st.final_recipe with
    | none => simp [instruction_completion_node, hf]
    | some recipe =>
        rw [hf] at h
        simp only at h
        cases r1 <;> cases r2 <;> simp [instruction_completion_node, hf, h]

/-- C6 witness: on the three-long-step state no correction is attempted,
so the node ignores the corrective oracle. -/
theorem C6_audit_trigger_witness :
    instruction_completion_node CompletionOutcome.raised threeLongState =
      instruction_completion_node (CompletionOutcome.parsed ["a", "b"]) threeLongState :=
  C6_audit_trigger.2.2.2 CompletionOutcome.raised (CompletionOutcome.parsed ["a", "b"])
    threeLongState (by decide)

/-! ## Claim C7: non-regressive instruction replacement -/

/-- C7: when a correction is attempted, a returned list that is non-empty
and strictly longer than the current instructions replaces them in both
the final and the selected recipe views; a returned list of equal or
shorter length leaves the original instructions and the selected view
untouched. -/
theorem C7_instruction_replacement :
    ∀ (st : RecipeState) (recipe : Recipe) (steps : List String),
      st.final_recipe = some recipe →
      instructionsNeedCompletion recipe.instructions = true →
      ((steps ≠ [] ∧ recipe.instructions.length < steps.length →
          (instruction_completion_node (CompletionOutcome.parsed steps) st).final_recipe =
            some { recipe with instructions := steps } ∧
          (instruction_completion_node (CompletionOutcome.parsed steps) st).selected_recipe =
            some { recipe with instructions := steps }) ∧
       (steps.length ≤ recipe.instructions.length →
          (instruction_completion_node (CompletionOutcome.parsed steps) st).final_recipe =
            some recipe ∧
          (instruction_completion_node (CompletionOutcome.parsed steps) st).selected_recipe =
            st.selected_recipe)) := by
  intro st recipe steps hf hn
  constructor
  · intro hcond
    simp [instruction_completion_node, hf, hn, hcond]
  · intro hle
    have hcond : ¬(steps ≠ [] ∧ recipe.instructions.length < steps.length) := by
      rintro ⟨-, hlt⟩
      omega
    simp [instruction_completion_node, hf, hn, hcond]

/-- C7 witness: on the one-step state, a three-step correction replaces
both views, while an empty correction leaves them untouched. -/
theorem C7_instruction_replacement_witness :
    ((instruction_completion_node (CompletionOutcome.parsed newSteps) oneStepState).final_recipe =
        some { strApplianceRecipe with instructions := newSteps } ∧
     (instruction_completion_node (CompletionOutcome.parsed newSteps) oneStepState).selected_recipe =
        some { strApplianceRecipe with instructions := newSteps }) ∧
    ((instruction_completion_node (CompletionOutcome.parsed []) oneStepState).final_recipe =
        some { strApplianceRecipe with instructions := ["ok"] } ∧
     (instruction_completion_node (CompletionOutcome.parsed []) oneStepState).selected_recipe =
        oneStepState.selected_recipe) :=
  ⟨(C7_instruction_replacement oneStepState { strApplianceRecipe with instructions := ["ok"] }
      newSteps rfl (by decide)).1 (by decide),
   (C7_instruction_replacement oneStepState { strApplianceRecipe with instructions := ["ok"] }
      [] rfl (by decide)).2 (by decide)⟩

/-! ## Claim C2: single-string appliance in the terminal state -/

/-- C2: the claim states that every terminal state of a run stores
final_recipe.appliance_used as a single string.  Counterexample: in the
Tavily-disabled workflow the final-recipe compiler never runs, so a
list-shaped appliance_used delivered by the combined draft generation
survives verbatim into the terminal state. -/
theorem C2_counterexample :
    (runSimpleWorkflow (some listApplianceResponse) CompletionOutcome.raised
        initState).final_recipe.map Recipe.appliance_used =
      some (ApplianceField.list ["Oven", "Stovetop"]) := by decide

/-- C2 amended: whenever the final-recipe compiler stage runs and its
generation call succeeds, the stored appliance_used is a single string: a
string-shaped value is kept as is, and a non-empty list-shaped value is
collapsed to its first element.  (In the search-disabled workflow this
stage never runs, and the terminal state keeps whatever the draft
generation supplied.) -/
theorem C2_amended :
    (∀ (r : Recipe) (st : RecipeState) (s : String),
        r.appliance_used = ApplianceField.str s →
          final_recipe_compiler_node (some r) st =
            Except.ok { st with processing_step := "final_recipe_complete",
                                final_recipe := some r }) ∧
    (∀ (r : Recipe) (st : RecipeState) (a : String) (rest : List String),
        r.appliance_used = ApplianceField.list (a :: rest) →
          final_recipe_compiler_node (some r) st =
            Except.ok { st with processing_step := "final_recipe_complete",
                                final_recipe :=
                                  some { r with appliance_used := ApplianceField.str a } }) := by
  constructor
  · intro r st s h
    simp [final_recipe_compiler_node, h]
  · intro r st a rest h
    simp [final_recipe_compiler_node, h]

/-- C2 witness: the amended statement applied to concrete recipes with a
string-shaped and a list-shaped appliance value. -/
theorem C2_amended_witness :
    final_recipe_compiler_node (some strApplianceRecipe) initState =
      Except.ok { initState with processing_step := "final_recipe_complete",
                                 final_recipe := some strApplianceRecipe } ∧
    final_recipe_compiler_node (some listApplianceRecipe) initState =
      Except.ok { initState with
                    processing_step := "final_recipe_complete",
                    final_recipe :=
                      some { listApplianceRecipe with
                               appliance_used := ApplianceField.str "Oven" } } :=
  ⟨C2_amended.1 strApplianceRecipe initState "Oven" rfl,
   C2_amended.2 listApplianceRecipe initState "Oven" ["Stovetop"] rfl⟩

/-! ## Claim C4: tip merging -/

/-- The duplicate-dropping loop produces a list without duplicates, all of
whose elements avoid the seen accumulator. -/
theorem dedupStringTips_nodup_disjoint :
    ∀ (l : List JVal) (seen : List String),
      (dedupStringTips l seen).Nodup ∧ ∀ s ∈ dedupStringTips l seen, s ∉ seen := by
  intro l
  induction l with
  | nil => intro seen; exact ⟨List.nodup_nil, by simp [dedupStringTips]⟩
  | cons v rest ih =>
      intro seen
      cases v with
      | jother => simpa [dedupStringTips] using ih seen
      | jstr s =>
          by_cases hs : s ∈ seen
          · simp only [dedupStringTips, if_pos hs]
            exact ih seen
          · simp only [dedupStringTips, if_neg hs]
            refine ⟨?_, ?_⟩
            · refine List.nodup_cons.mpr ⟨?_, (ih (s :: seen)).1⟩
              intro hmem
              exact ((ih (s :: seen)).2 s hmem) (List.mem_cons_self s seen)
            · intro t ht
              rcases List.mem_cons.mp ht with rfl | ht2
              · exact hs
              · intro htseen
                exact ((ih (s :: seen)).2 t ht2) (List.mem_cons_of_mem s htseen)

/-- The duplicate-dropping loop returns a sublist of the string values of
its input, so original order is preserved. -/
theorem dedupStringTips_sublist :
    ∀ (l : List JVal) (seen : List String), List.Sublist (dedupStringTips l seen) (jstrVals l) := by
  intro l
  induction l with
  | nil => intro seen; simp [dedupStringTips, jstrVals]
  | cons v rest ih =>
      intro seen
      cases v with
      | jother => simpa [dedupStringTips, jstrVals] using ih seen
      | jstr s =>
          by_cases hs : s ∈ seen
          · simp only [dedupStringTips, if_pos hs, jstrVals, List.filterMap_cons]
            exact (ih seen).trans (List.sublist_cons_self s _)
          · simp only [dedupStringTips, if_neg hs, jstrVals, List.filterMap_cons]
            exact List.Sublist.cons₂ s (ih (s :: seen))

/-- The string values of an appended list. -/
theorem jstrVals_append (a b : List JVal) :
    jstrVals (a ++ b) = jstrVals a ++ jstrVals b := by
  simp [jstrVals, List.filterMap_append]

/-- The string values of a list of string values. -/
theorem jstrVals_map_jstr (l : List String) : jstrVals (l.map JVal.jstr) = l := by
  induction l with
  | nil => rfl
  | cons a rest ih => simp [jstrVals, List.filterMap_cons] at ih ⊢; exact ih

/-- On an all-string input without duplicates and disjoint from the seen
accumulator, the duplicate-dropping loop is the identity. -/
theorem dedupStringTips_eq_of_nodup :
    ∀ (l : List JVal) (seen : List String),
      (∀ v ∈ l, ∃ s, v = JVal.jstr s) →
      (jstrVals l).Nodup →
      (∀ s ∈ jstrVals l, s ∉ seen) →
      dedupStringTips l seen = jstrVals l := by
  intro l
  induction l with
  | nil => intro seen _ _ _; rfl
  | cons v rest ih =>
      intro seen hall hnodup hdisj
      obtain ⟨s, hv⟩ := hall v (List.mem_cons_self v rest)
      subst hv
      have hj : jstrVals (JVal.jstr s :: rest) = s :: jstrVals rest := by
        simp [jstrVals, List.filterMap_cons]
      rw [hj] at hnodup hdisj ⊢
      have hs : s ∉ seen := hdisj s (List.mem_cons_self s _)
      simp only [dedupStringTips, if_neg hs]
      congr 1
      apply ih (s :: seen)
      · intro w hw; exact hall w (List.mem_cons_of_mem _ hw)
      · exact (List.nodup_cons.mp hnodup).2
      · intro t ht htmem
        rcases List.mem_cons.mp htmem with rfl | hts
        · exact (List.nodup_cons.mp hnodup).1 ht
        · exact hdisj t (List.mem_cons_of_mem _ ht) hts

/-- On a state that reaches the merge (latch unset, search productive,
a result with content) and a successfully parsed list, the stored tips
are the deduplicated concatenation truncated to 8. -/
theorem enhance_success_tips (st : RecipeState) (tips : List JVal)
    (hl : st.search_enhancement_complete = false)
    (he : st.search_enhanced = true)
    (hc : ∃ r ∈ st.online_search_results, r.content ≠ "") :
    (enhance_with_search_node (some tips) st).cooking_tips =
      (dedupStringTips (st.cooking_tips.map JVal.jstr ++ tips) []).take 8 := by
  obtain ⟨r0, hr0, hc0⟩ := hc
  have hne : st.online_search_results ≠ [] := by
    intro h; rw [h] at hr0; exact absurd hr0 (List.not_mem_nil r0)
  have hcontent : st.online_search_results.filterMap (fun r =>
      if r.content ≠ "" then some ("Source: " ++ r.title ++ "\n" ++ r.content)
      else none) ≠ [] := by
    intro hmt
    have hmem : ("Source: " ++ r0.title ++ "\n" ++ r0.content) ∈
        st.online_search_results.filterMap (fun r =>
          if r.content ≠ "" then some ("Source: " ++ r.title ++ "\n" ++ r.content)
          else none) :=
      List.mem_filterMap.mpr ⟨r0, hr0, by simp [hc0]⟩
    rw [hmt] at hmem
    exact absurd hmem (List.not_mem_nil _)
  simp only [enhance_with_search_node]
  rw [if_neg (by simp [hl]), if_neg (by simp [he, hne]), if_neg hcontent]

/-- C4: when the tip-enhancement call parses a JSON list, the merged tips
are duplicate-free, at most 8, and a sublist of the existing tips followed
by the string values of the new tips (order preserved); when the
concatenation is duplicate-free, all-string, and within the cap, the
merged list is exactly the existing tips followed by the new ones; on the
concrete A-B against B-C-D example the merge yields A-B-C-D. -/
theorem C4_tip_merge :
    (∀ (st : RecipeState) (tips : List JVal),
        st.search_enhancement_complete = false →
        st.search_enhanced = true →
        (∃ r ∈ st.online_search_results, r.content ≠ "") →
          (enhance_with_search_node (some tips) st).cooking_tips.Nodup ∧
          (enhance_with_search_node (some tips) st).cooking_tips.length ≤ 8 ∧
          List.Sublist (enhance_with_search_node (some tips) st).cooking_tips
            (st.cooking_tips ++ jstrVals tips)) ∧
    (∀ (st : RecipeState) (tips : List JVal),
        st.search_enhancement_complete = false →
        st.search_enhanced = true →
        (∃ r ∈ st.online_search_results, r.content ≠ "") →
        (∀ v ∈ tips, ∃ s, v = JVal.jstr s) →
        (st.cooking_tips ++ jstrVals tips).Nodup →
        (st.cooking_tips ++ jstrVals tips).length ≤ 8 →
          (enhance_with_search_node (some tips) st).cooking_tips =
            st.cooking_tips ++ jstrVals tips) ∧
    (enhance_with_search_node (some [JVal.jstr "B", JVal.jstr "C", JVal.jstr "D"])
        exampleTipState).cooking_tips = ["A", "B", "C", "D"] := by
  have hvals : ∀ st : RecipeState, ∀ tips : List JVal,
      jstrVals (st.cooking_tips.map JVal.jstr ++ tips) =
        st.cooking_tips ++ jstrVals tips := by
    intro st tips
    rw [jstrVals_append, jstrVals_map_jstr]
  refine ⟨?_, ?_, ?_⟩
  · intro st tips hl he hc
    rw [enhance_success_tips st tips hl he hc]
    refine ⟨?_, ?_, ?_⟩
    · exact ((dedupStringTips_nodup_disjoint _ []).1).sublist (List.take_sublist _ _)
    · exact List.length_take_le _ _
    · have hsub := (List.take_sublist 8 _).trans
        (dedupStringTips_sublist (st.cooking_tips.map JVal.jstr ++ tips) [])
      rwa [hvals st tips] at hsub
  · intro st tips hl he hc hall hnodup hlen
    rw [enhance_success_tips st tips hl he hc]
    have hallall : ∀ v ∈ st.cooking_tips.map JVal.jstr ++ tips, ∃ s, v = JVal.jstr s := by
      intro v hv
      rcases List.mem_append.mp hv with hv1 | hv2
      · obtain ⟨s, _, rfl⟩ := List.mem_map.mp hv1
        exact ⟨s, rfl⟩
      · exact hall v hv2
    have hd := dedupStringTips_eq_of_nodup (st.cooking_tips.map JVal.jstr ++ tips) []
      hallall (by rw [hvals st tips]; exact hnodup) (by simp)
    rw [hvals st tips] at hd
    rw [hd]
    exact List.take_of_length_le hlen
  · decide

/-- C4 witness: the merge theorem applied on the example state, with new
tips C and D so the concatenation is duplicate-free and within the cap. -/
theorem C4_tip_merge_witness :
    (enhance_with_search_node (some [JVal.jstr "C", JVal.jstr "D"])
        exampleTipState).cooking_tips =
      exampleTipState.cooking_tips ++ jstrVals [JVal.jstr "C", JVal.jstr "D"] :=
  C4_tip_merge.2.1 exampleTipState [JVal.jstr "C", JVal.jstr "D"] rfl rfl
    (by decide)
    (by
      intro v hv
      simp only [List.mem_cons, List.not_mem_nil, or_false] at hv
      rcases hv with rfl | rfl
      · exact ⟨"C", rfl⟩
      · exact ⟨"D", rfl⟩)
    (by decide) (by decide)

/-! ## Claim C8: the search stage -/

/-- The search loop issues at most one call per remaining query. -/
theorem runSearches_issued_le (f : String → Nat → SearchOutcome) :
    ∀ qs : List String, ((runSearches f qs).2).length ≤ qs.length := by
  intro qs
  induction qs with
  | nil => simp [runSearches]
  | cons q rest ih =>
      cases hq : f q 2 with
      | ok res =>
          simp only [runSearches, hq, List.length_cons]
          omega
      | noResults =>
          simp only [runSearches, hq, List.length_cons]
          omega
      | err m =>
          by_cases hauth : isTavilyAuthError m
          · simp [runSearches, hq, hauth]
          · simp only [runSearches, hq, if_neg hauth, List.length_cons]
            omega

/-- Every issued search call requests exactly 2 results. -/
theorem runSearches_issued_max_results (f : String → Nat → SearchOutcome) :
    ∀ (qs : List String) (p : String × Nat), p ∈ (runSearches f qs).2 → p.2 = 2 := by
  intro qs
  induction qs with
  | nil => intro p hp; simp [runSearches] at hp
  | cons q rest ih =>
      intro p hp
      cases hq : f q 2 with
      | ok res =>
          rw [runSearches] at hp
          simp only [hq] at hp
          rcases List.mem_cons.mp hp with rfl | hp2
          · rfl
          · exact ih p hp2
      | noResults =>
          rw [runSearches] at hp
          simp only [hq] at hp
          rcases List.mem_cons.mp hp with rfl | hp2
          · rfl
          · exact ih p hp2
      | err m =>
          rw [runSearches] at hp
          simp only [hq] at hp
          by_cases hauth : isTavilyAuthError m
          · rw [if_pos hauth] at hp
            rcases List.mem_cons.mp hp with rfl | hp2
            · rfl
            · simp at hp2
          · rw [if_neg hauth] at hp
            rcases List.mem_cons.mp hp with rfl | hp2
            · rfl
            · exact ih p hp2

/-- If every issued query fails (no results key or a raised error), the
loop collects nothing. -/
theorem runSearches_all_fail (f : String → Nat → SearchOutcome) :
    ∀ qs : List String,
      (∀ q ∈ qs, f q 2 = SearchOutcome.noResults ∨ ∃ m, f q 2 = SearchOutcome.err m) →
      (runSearches f qs).1 = [] := by
  intro qs
  induction qs with
  | nil => intro _; rfl
  | cons q rest ih =>
      intro h
      rcases h q (List.mem_cons_self q rest) with hq | ⟨m, hq⟩
      · simp only [runSearches, hq]
        exact ih (fun q2 hq2 => h q2 (List.mem_cons_of_mem _ hq2))
      · simp only [runSearches, hq]
        by_cases hauth : isTavilyAuthError m
        · rw [if_pos hauth]
        · rw [if_neg hauth]
          exact ih (fun q2 hq2 => h q2 (List.mem_cons_of_mem _ hq2))

/-- C8: the search stage synthesizes at most 3 queries and issues at most
the first 2 of them, each with max_results 2; an authentication-class
failure aborts the remaining queries while results collected before it
are kept; a non-authentication failure merely skips to the next query;
and when every issued query fails, the node stores an empty result list,
sets the search-produced-results flag to false, and leaves the error
message untouched. -/
theorem C8_search_stage :
    (∀ st : RecipeState, (buildQueries st).length ≤ 3) ∧
    (∀ (f : String → Nat → SearchOutcome) (st : RecipeState),
        (issuedSearchCalls f st).length ≤ 2) ∧
    (∀ (f : String → Nat → SearchOutcome) (st : RecipeState) (p : String × Nat),
        p ∈ issuedSearchCalls f st → p.2 = 2) ∧
    (∀ (f : String → Nat → SearchOutcome) (m q : String) (rest : List String),
        f q 2 = SearchOutcome.err m → isTavilyAuthError m = true →
          runSearches f (q :: rest) = ([], [(q, 2)])) ∧
    (∀ (f : String → Nat → SearchOutcome) (res : List RawResult) (m q1 q2 : String)
        (rest : List String),
        f q1 2 = SearchOutcome.ok res → f q2 2 = SearchOutcome.err m →
        isTavilyAuthError m = true →
          runSearches f (q1 :: q2 :: rest) =
            (res.map (fun r => { title := r.title, content := r.content,
                                 url := r.url, query := q1 }),
             [(q1, 2), (q2, 2)])) ∧
    (∀ (f : String → Nat → SearchOutcome) (m q : String) (rest : List String),
        f q 2 = SearchOutcome.err m → isTavilyAuthError m = false →
          runSearches f (q :: rest) =
            ((runSearches f rest).1, (q, 2) :: (runSearches f rest).2)) ∧
    (∀ (f : String → Nat → SearchOutcome) (st : RecipeState),
        (∀ q, f q 2 = SearchOutcome.noResults ∨ ∃ m, f q 2 = SearchOutcome.err m) →
          (online_search_node true f st).online_search_results = [] ∧
          (online_search_node true f st).search_enhanced = false ∧
          (online_search_node true f st).error_message = st.error_message) := by
  refine ⟨?_, ?_, ?_, ?_, ?_, ?_, ?_⟩
  · intro st
    unfold buildQueries
    cases hsel : st.selected_recipe <;> simp only [hsel] <;> split_ifs <;> simp
  · intro f st
    calc (issuedSearchCalls f st).length
        ≤ ((buildQueries st).take 2).length := runSearches_issued_le f _
      _ ≤ 2 := List.length_take_le _ _
  · intro f st p hp
    exact runSearches_issued_max_results f _ p hp
  · intro f m q rest hq hauth
    simp [runSearches, hq, hauth]
  · intro f res m q1 q2 rest h1 h2 hauth
    simp [runSearches, h1, h2, hauth]
  · intro f m q rest hq hauth
    simp [runSearches, hq, hauth]
  · intro f st h
    have hempty : (runSearches f ((buildQueries
        { st with processing_step := "online_search" }).take 2)).1 = [] :=
      runSearches_all_fail f _ (fun q _ => h q)
    unfold online_search_node
    refine ⟨?_, ?_, ?_⟩ <;> simp [hempty]

/-- C8 witness: the all-queries-fail clause applied to a concrete failing
search capability on the initial state. -/
theorem C8_search_stage_witness :
    (online_search_node true failingSearch initState).online_search_results = [] ∧
    (online_search_node true failingSearch initState).search_enhanced = false ∧
    (online_search_node true failingSearch initState).error_message =
      initState.error_message :=
  C8_search_stage.2.2.2.2.2.2 failingSearch initState
    (fun _ => Or.inr ⟨"401 Unauthorized", rfl⟩)

/-! ## Claim C9: tips generation overwrites the enhanced tips -/

/-- When the compiler node completes without raising, it leaves the
cooking_tips field of the state untouched. -/
theorem final_recipe_compiler_node_ok_tips (g : Option Recipe) (st st2 : RecipeState)
    (h : final_recipe_compiler_node g st = Except.ok st2) :
    st2.cooking_tips = st.cooking_tips := by
  rcases g with _ | r
  · simp only [final_recipe_compiler_node] at h
    cases hf : fallback_final_recipe { st with processing_step := "final_recipe_compilation" } with
    | error e => rw [hf] at h; simp [Except.map] at h
    | ok fb =>
        rw [hf] at h
        simp only [Except.map, Except.ok.injEq] at h
        rw [← h]
  · rcases ha : r.appliance_used with s | (_ | ⟨a, rest⟩)
    · simp only [final_recipe_compiler_node, ha, Except.ok.injEq] at h
      rw [← h]
    · simp only [final_recipe_compiler_node, ha] at h
      cases hf : fallback_final_recipe { st with processing_step := "final_recipe_compilation" } with
      | error e => rw [hf] at h; simp [Except.map] at h
      | ok fb =>
          rw [hf] at h
          simp only [Except.map, Except.ok.injEq] at h
          rw [← h]
    · simp only [final_recipe_compiler_node, ha, Except.ok.injEq] at h
      rw [← h]

/-- C9: the tips-generation step stores a tips list that is a function of
its own generation oracle alone, so whatever the enhancement step merged
into cooking_tips is overwritten before compilation; consequently any
successful run of the combined tips node ends with cooking_tips equal to
that function of the tips oracle, independent of the enhancement oracle. -/
theorem C9_tips_overwritten :
    (∀ (tipsResp : Option String) (st : RecipeState),
        (cooking_tips_node tipsResp st).cooking_tips = tipsFromResponse tipsResp) ∧
    (∀ (tavEn hasClient : Bool) (f : String → Nat → SearchOutcome)
        (enhResp : Option (List JVal)) (tipsResp : Option String)
        (compGen : Option Recipe) (st st2 : RecipeState),
        enhanced_cooking_tips_node tavEn hasClient f enhResp tipsResp compGen st =
          Except.ok st2 →
          st2.cooking_tips = tipsFromResponse tipsResp) ∧
    (∀ (tavEn hasClient : Bool) (f : String → Nat → SearchOutcome)
        (enh1 enh2 : Option (List JVal)) (tipsResp : Option String)
        (compGen : Option Recipe) (st s1 s2 : RecipeState),
        enhanced_cooking_tips_node tavEn hasClient f enh1 tipsResp compGen st =
          Except.ok s1 →
        enhanced_cooking_tips_node tavEn hasClient f enh2 tipsResp compGen st =
          Except.ok s2 →
          s1.cooking_tips = s2.cooking_tips) := by
  have h1 : ∀ (tipsResp : Option String) (st : RecipeState),
      (cooking_tips_node tipsResp st).cooking_tips = tipsFromResponse tipsResp := by
    intro r st
    cases r <;> rfl
  have h2 : ∀ (tavEn hasClient : Bool) (f : String → Nat → SearchOutcome)
      (enhResp : Option (List JVal)) (tipsResp : Option String)
      (compGen : Option Recipe) (st st2 : RecipeState),
      enhanced_cooking_tips_node tavEn hasClient f enhResp tipsResp compGen st =
        Except.ok st2 →
        st2.cooking_tips = tipsFromResponse tipsResp := by
    intro tavEn hasClient f enhResp tipsResp compGen st st2 h
    simp only [enhanced_cooking_tips_node] at h
    split at h
    next st3 heq =>
      injection h with h3
      rw [← h3]
      rw [final_recipe_compiler_node_ok_tips _ _ _ heq]
      exact h1 tipsResp _
    next e heq => exact absurd h (by simp)
  refine ⟨h1, h2, ?_⟩
  intro tavEn hasClient f enh1 enh2 tipsResp compGen st s1 s2 ha hb
  rw [h2 tavEn hasClient f enh1 tipsResp compGen st s1 ha,
      h2 tavEn hasClient f enh2 tipsResp compGen st s2 hb]

/-- C9 witness: a concrete run of the combined tips node ends with the
tips determined by the tips oracle alone. -/
theorem C9_tips_overwritten_witness :
    (enhanced_cooking_tips_node false false noResultSearch none none
        (some strApplianceRecipe) initState).map RecipeState.cooking_tips =
      Except.ok (tipsFromResponse none) := by
  have hok : (enhanced_cooking_tips_node false false noResultSearch none none
      (some strApplianceRecipe) initState).isOk = true := by decide
  cases hE : enhanced_cooking_tips_node false false noResultSearch none none
      (some strApplianceRecipe) initState with
  | ok s2 =>
      simp only [Except.map]
      exact congrArg Except.ok
        (C9_tips_overwritten.2.1 false false noResultSearch none none
          (some strApplianceRecipe) initState s2 hE)
  | error e =>
      rw [hE] at hok
      simp [Except.isOk, Except.toBool] at hok
